import Mathlib

set_option maxRecDepth 4000

/-
Verification of the orchestration / normalization pipeline in
src/services/geminiService.ts against its natural-language specification.

The embedding models JavaScript values (as produced by JSON.parse and
manipulated by object spread / property assignment), the JSON-recovery
helper parseJSON, the bounded-time wrapper withTimeout, the structured
extraction stage evaluateSyllabusContent, the two delimited-text search
stages performBenchmarking / findLocalTutors, and the translation merge
translateAnalysisResult.

The upstream model call is represented by its outcome: an `Except JsError`
carrying either the thrown error (a rejected promise, including the
timeout rejection produced by withTimeout) or the response delivered to
the stage.  Everything downstream of the `await` is translated from the
source.
-/

/-- A thrown JavaScript error, identified by its message. -/
structure JsError where
  message : String

/-- JavaScript values as produced by JSON.parse, extended with named
properties on arrays: JavaScript permits assigning named properties to an
array, and the gap-analysis sanitization pass does exactly that when the
parsed `gapAnalysis` is an array.  Numbers are modelled by their integer
part (the fractional part and exponent are consumed syntactically); no
claim depends on fractional numeric values. -/
inductive JValue where
  | null : JValue
  | bool : Bool → JValue
  | num : Int → JValue
  | str : String → JValue
  | arr : List JValue → List (String × JValue) → JValue
  | obj : List (String × JValue) → JValue

/-- The JavaScript whitespace class (regex \s and String.prototype.trim). -/
def jsWsChar (c : Char) : Bool :=
  c = ' ' || c = '\t' || c = '\n' || c = '\r' || c = '\x0b' || c = '\x0c' ||
  c.toNat = 0xa0 || c.toNat = 0x1680 || (0x2000 ≤ c.toNat && c.toNat ≤ 0x200a) ||
  c.toNat = 0x2028 || c.toNat = 0x2029 || c.toNat = 0x202f || c.toNat = 0x205f ||
  c.toNat = 0x3000 || c.toNat = 0xfeff

/-- Whitespace accepted between JSON tokens by JSON.parse. -/
def jsonWsChar (c : Char) : Bool :=
  c = ' ' || c = '\t' || c = '\n' || c = '\r'

/-- String.prototype.trim. -/
def jsTrimChars (cs : List Char) : List Char :=
  ((cs.dropWhile jsWsChar).reverse.dropWhile jsWsChar).reverse

/-- String.prototype.trim on strings. -/
def jsTrim (s : String) : String := String.mk (jsTrimChars s.data)

/-- s.replace of all asterisks by the empty string (the /\*/g replacement). -/
def stripStars (s : String) : String := String.mk (s.data.filter (fun c => c != '*'))

/-- First binding of a key in a property list (JavaScript objects cannot
hold a key twice, so on well-formed values first and last agree). -/
def lookupFirst : List (String × JValue) → String → Option JValue
  | [], _ => none
  | (k', v) :: rest, k => if k' = k then some v else lookupFirst rest k

/-- Last binding of a key in a property list. -/
def lookupLast : List (String × JValue) → String → Option JValue
  | [], _ => none
  | (k', v) :: rest, k =>
      match lookupLast rest k with
      | some w => some w
      | none => if k' = k then some v else none

/-- JavaScript property assignment on a property list: overwrite in place
when the key is present (keeping its position), append otherwise. -/
def objInsert : List (String × JValue) → String → JValue → List (String × JValue)
  | [], k, v => [(k, v)]
  | (k', v') :: rest, k, v =>
      if k' = k then (k', v) :: rest else (k', v') :: objInsert rest k v

/-- Decimal digit character. -/
def digitChar : Nat → Char
  | 0 => '0'
  | 1 => '1'
  | 2 => '2'
  | 3 => '3'
  | 4 => '4'
  | 5 => '5'
  | 6 => '6'
  | 7 => '7'
  | 8 => '8'
  | _ => '9'

/-- Decimal digits of a natural number (fuel-based, most significant first). -/
def natStrAux : Nat → Nat → List Char
  | 0, _ => []
  | fuel + 1, n =>
      if n < 10 then [digitChar n]
      else natStrAux fuel (n / 10) ++ [digitChar (n % 10)]

/-- The property name a JavaScript array index is exposed as ("0", "1", ...). -/
def natKey (n : Nat) : String := String.mk (natStrAux (n + 1) n)

/-- Index properties of an array, starting at a given index. -/
def indexedFrom : Nat → List JValue → List (String × JValue)
  | _, [] => []
  | i, x :: xs => (natKey i, x) :: indexedFrom (i + 1) xs

/-- Own enumerable properties of a value, as enumerated by object spread:
object keys; array indices followed by named properties; string indices;
nothing for primitives. -/
def jsSpreadProps : JValue → List (String × JValue)
  | JValue.obj kvs => kvs
  | JValue.arr xs props => indexedFrom 0 xs ++ props
  | JValue.str s => indexedFrom 0 (s.data.map (fun c => JValue.str (String.mk [c])))
  | _ => []

/-- Property read (undefined is `none`). -/
def getProp (v : JValue) (k : String) : Option JValue :=
  lookupFirst (jsSpreadProps v) k

/-- Property write.  Writing a property on a primitive is a silent no-op in
non-strict JavaScript; the modelled code never writes numeric indices. -/
def setProp (v : JValue) (k : String) (x : JValue) : JValue :=
  match v with
  | JValue.obj kvs => JValue.obj (objInsert kvs k x)
  | JValue.arr xs props => JValue.arr xs (objInsert props k x)
  | other => other

/-- Spread the own enumerable properties of a value onto a property list. -/
def spreadInto (base : List (String × JValue)) (v : JValue) : List (String × JValue) :=
  (jsSpreadProps v).foldl (fun acc kv => objInsert acc kv.1 kv.2) base

/-- The object literal spreading two values in order. -/
def spread2 (a b : JValue) : JValue :=
  JValue.obj (spreadInto (spreadInto [] a) b)

/-- Truthiness of a possibly-undefined value. -/
def jsTruthy : Option JValue → Bool
  | none => false
  | some JValue.null => false
  | some (JValue.bool b) => b
  | some (JValue.num n) => n != 0
  | some (JValue.str s) => s != ""
  | some (JValue.arr _ _) => true
  | some (JValue.obj _) => true

/-- Whether `typeof x` is the string "object" (true for null, arrays and
objects; false for undefined, booleans, numbers and strings). -/
def jsTypeofObject : Option JValue → Bool
  | some JValue.null => true
  | some (JValue.arr _ _) => true
  | some (JValue.obj _) => true
  | _ => false

/-- Array.isArray on a possibly-undefined value. -/
def isArrOpt : Option JValue → Bool
  | some (JValue.arr _ _) => true
  | _ => false

/-- The JavaScript `||` idiom on strings: the empty string is falsy. -/
def jsOrDefault (s d : String) : String := if s = "" then d else s

/-- Value of a hexadecimal digit. -/
def hexVal : Char → Option Nat := fun c =>
  if '0' ≤ c && c ≤ '9' then some (c.toNat - 48)
  else if 'a' ≤ c && c ≤ 'f' then some (c.toNat - 87)
  else if 'A' ≤ c && c ≤ 'F' then some (c.toNat - 55)
  else none

/-- Single-character JSON string escapes. -/
def escChar : Char → Option Char
  | '"' => some '"'
  | '\\' => some '\\'
  | '/' => some '/'
  | 'b' => some '\x08'
  | 'f' => some '\x0c'
  | 'n' => some '\n'
  | 'r' => some '\r'
  | 't' => some '\t'
  | _ => none

/-- Body of a JSON string after the opening quote: the decoded characters
and the remaining input after the closing quote. -/
def parseStrChars : List Char → Option (List Char × List Char)
  | [] => none
  | '"' :: rest => some ([], rest)
  | '\\' :: 'u' :: h1 :: h2 :: h3 :: h4 :: rest =>
      match hexVal h1, hexVal h2, hexVal h3, hexVal h4 with
      | some a, some b, some c, some d =>
          match parseStrChars rest with
          | some (cs, r) => some (Char.ofNat (((a * 16 + b) * 16 + c) * 16 + d) :: cs, r)
          | none => none
      | _, _, _, _ => none
  | '\\' :: e :: rest =>
      match escChar e with
      | some c =>
          match parseStrChars rest with
          | some (cs, r) => some (c :: cs, r)
          | none => none
      | none => none
  | c :: rest =>
      if c.toNat < 0x20 then none
      else
        match parseStrChars rest with
        | some (cs, r) => some (c :: cs, r)
        | none => none

/-- Numeric value of a digit list. -/
def digitsVal (ds : List Char) : Nat :=
  ds.foldl (fun a c => a * 10 + (c.toNat - 48)) 0

/-- A JSON number literal: -?(0|[1-9][0-9]*)(.[0-9]+)?([eE][+-]?[0-9]+)?.
The fractional part and exponent are consumed but only the integer part is
retained as the value. -/
def parseNum (cs : List Char) : Option (JValue × List Char) :=
  let p := match cs with
    | '-' :: t => (true, t)
    | _ => (false, cs)
  let neg := p.1
  let cs1 := p.2
  let ds := cs1.takeWhile Char.isDigit
  let r1 := cs1.drop ds.length
  if ds = [] then none
  else if 1 < ds.length && ds.head? = some '0' then none
  else
    let afterFrac : Option (List Char) :=
      match r1 with
      | '.' :: t =>
          let fd := t.takeWhile Char.isDigit
          if fd = [] then none else some (t.drop fd.length)
      | _ => some r1
    match afterFrac with
    | none => none
    | some r2 =>
        let afterExp : Option (List Char) :=
          match r2 with
          | c :: t =>
              if c = 'e' || c = 'E' then
                let t2 := match t with
                  | s :: tt => if s = '+' || s = '-' then tt else s :: tt
                  | [] => []
                let ed := t2.takeWhile Char.isDigit
                if ed = [] then none else some (t2.drop ed.length)
              else some r2
          | [] => some r2
        match afterExp with
        | none => none
        | some r3 =>
            let n : Int := (digitsVal ds : Nat)
            some (JValue.num (if neg then -n else n), r3)

/-- Parser modes: a single value, the remaining elements of an array
(accumulator of elements already read, in reverse), or the remaining
members of an object (accumulator of members already read). -/
inductive PMode where
  | val : PMode
  | elems : List JValue → PMode
  | members : List (String × JValue) → PMode

/-- Recursive-descent JSON parser (the model of JSON.parse), fuel-based so
that every recursion is structural and the kernel can evaluate it.  Each
recursive call strictly decreases the fuel; the nesting depth plus the
number of separators along any call path is bounded by the input length,
so the fuel supplied by `jsonParse` never runs out. -/
def parseF : Nat → PMode → List Char → Option (JValue × List Char)
  | 0, _, _ => none
  | fuel + 1, PMode.val, cs0 =>
      let cs := cs0.dropWhile jsonWsChar
      match cs with
      | 'n' :: 'u' :: 'l' :: 'l' :: rest => some (JValue.null, rest)
      | 't' :: 'r' :: 'u' :: 'e' :: rest => some (JValue.bool true, rest)
      | 'f' :: 'a' :: 'l' :: 's' :: 'e' :: rest => some (JValue.bool false, rest)
      | '"' :: rest =>
          match parseStrChars rest with
          | some (sc, r) => some (JValue.str (String.mk sc), r)
          | none => none
      | '[' :: rest =>
          let r := rest.dropWhile jsonWsChar
          (match r with
           | ']' :: r2 => some (JValue.arr [] [], r2)
           | _ => parseF fuel (PMode.elems []) r)
      | '\x7b' :: rest =>
          let r := rest.dropWhile jsonWsChar
          (match r with
           | '\x7d' :: r2 => some (JValue.obj [], r2)
           | _ => parseF fuel (PMode.members []) r)
      | c :: _ => if c = '-' || c.isDigit then parseNum cs else none
      | [] => none
  | fuel + 1, PMode.elems acc, cs =>
      match parseF fuel PMode.val cs with
      | none => none
      | some (v, r) =>
          match r.dropWhile jsonWsChar with
          | ',' :: r2 => parseF fuel (PMode.elems (v :: acc)) r2
          | ']' :: r2 => some (JValue.arr (v :: acc).reverse [], r2)
          | _ => none
  | fuel + 1, PMode.members acc, cs =>
      match cs.dropWhile jsonWsChar with
      | '"' :: rest =>
          match parseStrChars rest with
          | none => none
          | some (kcs, r1) =>
              match r1.dropWhile jsonWsChar with
              | ':' :: r2 =>
                  match parseF fuel PMode.val r2 with
                  | none => none
                  | some (v, r3) =>
                      let acc2 := objInsert acc (String.mk kcs) v
                      match r3.dropWhile jsonWsChar with
                      | ',' :: r4 => parseF fuel (PMode.members acc2) r4
                      | '\x7d' :: r4 => some (JValue.obj acc2, r4)
                      | _ => none
              | _ => none
      | _ => none

/-- JSON.parse: a single JSON value, with only whitespace allowed after it;
`none` models a thrown SyntaxError. -/
def jsonParse (s : String) : Option JValue :=
  match parseF (2 * s.data.length + 16) PMode.val s.data with
  | some (v, rest) => if rest.dropWhile jsonWsChar = [] then some v else none
  | none => none

/-- Index of the last occurrence of a character. -/
def lastIdxOf (cs : List Char) (c : Char) : Option Nat :=
  match cs.reverse.findIdx? (fun x => x = c) with
  | some r => some (cs.length - 1 - r)
  | none => none

/-- The substring matched by the greedy regex /\x7b[\s\S]*\x7d/ on a text:
from the first opening brace to the last closing brace, provided the first
opening brace precedes the last closing brace; no match otherwise. -/
def braceMatch (s : String) : Option String :=
  match s.data.findIdx? (fun c => c = '\x7b'), lastIdxOf s.data '\x7d' with
  | some i, some j =>
      if i < j then some (String.mk ((s.data.drop i).take (j + 1 - i))) else none
  | _, _ => none

/-- The substring matched by the greedy regex /\[[\s\S]*\]/ on a text. -/
def bracketMatch (s : String) : Option String :=
  match s.data.findIdx? (fun c => c = '['), lastIdxOf s.data ']' with
  | some i, some j =>
      if i < j then some (String.mk ((s.data.drop i).take (j + 1 - i))) else none
  | _, _ => none

/-- Literal (case-sensitive) prefix test. -/
def startsWithLit : List Char → List Char → Bool
  | [], _ => true
  | _ :: _, [] => false
  | p :: ps, c :: cs => p = c && startsWithLit ps cs

/-- Global replacement of a literal pattern followed by a greedy whitespace
run by the empty string (the /pat\s*/g replace): scan left to right,
removing the pattern and its trailing whitespace at each match and
resuming after it.  Fuel-based; the fuel is the input length, and every
step consumes at least one character. -/
def stripPatAux (pat : List Char) : Nat → List Char → List Char
  | _, [] => []
  | 0, cs => cs
  | fuel + 1, c :: rest =>
      if startsWithLit pat (c :: rest) then
        stripPatAux pat fuel (((c :: rest).drop pat.length).dropWhile jsWsChar)
      else c :: stripPatAux pat fuel rest

/-- The fallback cleanup of parseJSON: remove every "```json" marker with
trailing whitespace, then every "```" marker with trailing whitespace. -/
def stripFences (s : String) : String :=
  let a := stripPatAux "```json".data s.data.length s.data
  String.mk (stripPatAux "```".data a.length a)

/-- parseJSON (geminiService.ts lines 16-35).  The source computes
text.trim() into a local that is never used; the entire body sits inside
one try/catch whose handler returns an empty object, so a JSON.parse
failure at any step yields the empty object without trying later steps.
There is no whole-text parse attempt: the brace-extraction regex is tried
first, then the bracket extraction, then the code-fence cleanup. -/
def parseJSON (text : String) : JValue :=
  let _trimmed := jsTrim text
  match braceMatch text with
  | some m => (jsonParse m).getD (JValue.obj [])
  | none =>
      match bracketMatch text with
      | some m => (jsonParse m).getD (JValue.obj [])
      | none => (jsonParse (stripFences text)).getD (JValue.obj [])

/-- Modelled from the spec (section 4.3 step 2, quoted by claim C3): the
recovery order as the specification states it, with a whole-text parse
first and each failed step falling through to the next: (a) whole-text
parse; (b) extract the first top-level brace-delimited object and parse
it; (c) extract the first top-level bracket-delimited array and parse it;
(d) strip code-fence markers and retry; (e) empty object. -/
def parseJSONSpecOrder (text : String) : JValue :=
  match jsonParse text with
  | some v => v
  | none =>
      match (braceMatch text).bind jsonParse with
      | some v => v
      | none =>
          match (bracketMatch text).bind jsonParse with
          | some v => v
          | none => (jsonParse (stripFences text)).getD (JValue.obj [])

/-- A promise that has settled: the instant at which it settled and its
outcome (fulfilled value or rejection). -/
structure Settled (α : Type) where
  time : Nat
  outcome : Except JsError α

/-- Promise.race of two settled promises: whichever settled first wins;
on a tie the first-listed operand (the wrapped operation) wins. -/
def race {α : Type} (p q : Settled α) : Settled α :=
  if p.time ≤ q.time then p else q

/-- withTimeout (geminiService.ts lines 40-48): race the operation against
a timer that rejects with the caller-supplied message at the deadline.
(The timer is cleared on either outcome; the clearing has no observable
effect on the returned outcome.) -/
def withTimeout {α : Type} (p : Settled α) (ms : Nat) (errorMsg : String) : Settled α :=
  race p ⟨ms, Except.error ⟨errorMsg⟩⟩

/-- Characters matched by the regex dot (anything but line terminators). -/
def dotChar (c : Char) : Bool :=
  !(c = '\n' || c = '\r' || c.toNat = 0x2028 || c.toNat = 0x2029)

/-- Length of the leading run of ':' and '*' characters (the [:*]* part of
the key-line regexes). -/
def colonStarRun (cs : List Char) : Nat :=
  (cs.takeWhile (fun c => c = ':' || c = '*')).length

/-- Length of the leading whitespace run. -/
def wsRun (cs : List Char) : Nat :=
  (cs.takeWhile jsWsChar).length

/-- One backtracking position of the single-line capture (.+?)(?:\n|$):
starting the lazy capture at offset q, the capture is the run of
dot-characters from q, and it succeeds only when that run is non-empty and
is followed by a literal newline or the end of the input. -/
def capAtQ (t : List Char) (q : Nat) : Option (List Char) :=
  match t.drop q with
  | [] => none
  | c :: rest =>
      if dotChar c then
        let cap := (c :: rest).takeWhile dotChar
        match (c :: rest).drop cap.length with
        | [] => some cap
        | r :: _ => if r = '\n' then some cap else none
      else none

/-- Try capture start offsets in backtracking order, returning the first
success. -/
def tryQs (t : List Char) : List Nat → Option (List Char)
  | [] => none
  | q :: qs =>
      match capAtQ t q with
      | some cap => some cap
      | none => tryQs t qs

/-- The tail [:*]*\s*(.+?)(?:\n|$) of the single-line key regexes, applied
to the input right after the key literal.  The [:*]* and \s* runs are
greedy; the engine backtracks the \s* run from its end down to its start
and then gives one character back from the [:*]* run (a ':' or '*', which
the dot can match) before failing this key occurrence. -/
def attemptP1 (t : List Char) : Option (List Char) :=
  let k := colonStarRun t
  let m := k + wsRun (t.drop k)
  let qs := (List.range (m + 1 - k)).map (fun i => m - i) ++
    (if 0 < k then [k - 1] else [])
  tryQs t qs

/-- Case-insensitive prefix test; the pattern is supplied pre-lowercased. -/
def startsWithCI : List Char → List Char → Bool
  | [], _ => true
  | _ :: _, [] => false
  | p :: ps, c :: cs => p = c.toLower && startsWithCI ps cs

/-- The END_ITEM terminator, pre-lowercased. -/
def endItemChars : List Char := "end_item".data

/-- Characters of the lazy multi-line capture after its first character:
stop at the first position where END_ITEM (case-insensitively) begins, or
at the end of the input. -/
def capTailEnd : List Char → List Char
  | [] => []
  | c :: rest =>
      if startsWithCI endItemChars (c :: rest) then [] else c :: capTailEnd rest

/-- The lazy multi-line capture ([\s\S]+?)(?:END_ITEM|$): at least one
character, extending to the first END_ITEM marker or the end of input. -/
def captureToEnd : List Char → List Char
  | [] => []
  | c :: rest => c :: capTailEnd rest

/-- The tail [:*]*\s*([\s\S]+?)(?:END_ITEM|$) of the multi-line key
regexes.  Since [\s\S] matches anything, the greedy \s* position succeeds
whenever any character remains; backtracking gives back one whitespace
character, then one ':'/'*' character, before failing the occurrence. -/
def attemptP2 (t : List Char) : Option (List Char) :=
  let k := colonStarRun t
  let m := k + wsRun (t.drop k)
  let q : Option Nat :=
    if m < t.length then some m
    else if k < m then some (m - 1)
    else if 0 < k then some (k - 1)
    else none
  q.map (fun q => captureToEnd (t.drop q))

/-- Scan for the first occurrence of the key literal (case-insensitively)
at which the regex tail succeeds, returning that capture. -/
def scanKey (keyLower : List Char) (attempt : List Char → Option (List Char)) :
    List Char → Option (List Char)
  | [] => none
  | c :: rest =>
      if startsWithCI keyLower (c :: rest) then
        match attempt ((c :: rest).drop keyLower.length) with
        | some cap => some cap
        | none => scanKey keyLower attempt rest
      else scanKey keyLower attempt rest

/-- item.match(/Key[:*]*\s*(.+?)(?:\n|$)/i): the first capture group, or
`none` when the regex does not match. -/
def matchLineVal (key : String) (s : String) : Option String :=
  (scanKey (key.data.map Char.toLower) attemptP1 s.data).map String.mk

/-- item.match(/Key[:*]*\s*([\s\S]+?)(?:END_ITEM|$)/i): the first capture
group, or `none` when the regex does not match. -/
def matchBlockVal (key : String) (s : String) : Option String :=
  (scanKey (key.data.map Char.toLower) attemptP2 s.data).map String.mk

/-- String.prototype.split on a literal separator: every occurrence splits,
empty pieces are kept, and the text before the first occurrence is the
first piece.  Fuel-based; the separators used are non-empty, so each step
consumes at least one character. -/
def splitAux (sep : List Char) : Nat → List Char → List (List Char)
  | _, [] => [[]]
  | 0, cs => [cs]
  | fuel + 1, c :: rest =>
      if startsWithLit sep (c :: rest) then
        [] :: splitAux sep fuel ((c :: rest).drop sep.length)
      else
        match splitAux sep fuel rest with
        | [] => [[c]]
        | g :: gs => (c :: g) :: gs

/-- String.prototype.split on strings. -/
def jsSplit (s sep : String) : List String :=
  (splitAux sep.data s.data.length s.data).map String.mk

/-- A benchmark record as pushed by performBenchmarking. -/
structure BenchRecord where
  university : String
  comparison : String
  url : Option String

/-- A tutor record as pushed by findLocalTutors. -/
structure TutorRecord where
  name : String
  affiliation : String
  email : String
  specialization : String

/-- The loop body of the benchmark parser: a fragment becomes a
record only when BOTH the university and the comparison regexes match; the
university value is trimmed and asterisk-stripped, the comparison value is
only trimmed. -/
def benchFrag (frag : String) : Option BenchRecord :=
  match matchLineVal "University" frag, matchBlockVal "Comparison" frag with
  | some u, some c => some ⟨stripStars (jsTrim u), jsTrim c, none⟩
  | _, _ => none

/-- The parsing loop of performBenchmarking over the fragments obtained by
splitting the text on the BENCHMARK_ITEM marker:
every fragment, including the one before the first marker, is examined. -/
def parseBenchmarks (text : String) : List BenchRecord :=
  (jsSplit text "BENCHMARK_ITEM").filterMap benchFrag

/-- A search-grounded response: its text and, when grounding metadata is
present, the list of grounding chunks (each optionally carrying a web
locator). -/
structure SearchResponse where
  text : String
  chunks : Option (List (Option String))

/-- chunks.find(c => c.web?.uri): the first chunk whose locator is present
and truthy (non-empty). -/
def chunkFind : List (Option String) → Option String
  | [] => none
  | some u :: rest => if u = "" then chunkFind rest else some u
  | none :: rest => chunkFind rest

/-- Attach the first grounding locator to the first record, when grounding
chunks exist and at least one record was parsed. -/
def attachUrl (results : List BenchRecord) (chunks : Option (List (Option String))) :
    List BenchRecord :=
  match chunks, results with
  | some cs, r :: rest =>
      (match chunkFind cs with
       | some u => { r with url := some u } :: rest
       | none => r :: rest)
  | _, _ => results

/-- performBenchmarking (geminiService.ts lines 245-334), from the model
call onward: the entire body sits in a try/catch; any rejection of the
call (including the 90s timeout) is absorbed and replaced by the
"Search Unavailable" sentinel record, a successful call is parsed by the
delimited protocol, and a parse that yields no record is replaced by the
"No Data" sentinel record. -/
def performBenchmarking (call : Except JsError SearchResponse) : List BenchRecord :=
  match call with
  | Except.error _ =>
      [⟨"Search Unavailable", "Benchmarking skipped due to connection timeout or error.", none⟩]
  | Except.ok resp =>
      if 0 < (attachUrl (parseBenchmarks resp.text) resp.chunks).length then
        attachUrl (parseBenchmarks resp.text) resp.chunks
      else [⟨"No Data", "Could not retrieve benchmarks.", none⟩]

/-- The loop body of the tutor parser: a fragment becomes a record
when the name regex matches; affiliation and email default to "Unknown" /
"Not listed" and are trimmed and asterisk-stripped when present;
specialization defaults to "Related Field" and is only trimmed. -/
def tutorFrag (frag : String) : Option TutorRecord :=
  match matchLineVal "Name" frag with
  | none => none
  | some n =>
      some ⟨stripStars (jsTrim n),
            (match matchLineVal "Affiliation" frag with
             | some a => stripStars (jsTrim a)
             | none => "Unknown"),
            (match matchLineVal "Email" frag with
             | some e => stripStars (jsTrim e)
             | none => "Not listed"),
            (match matchBlockVal "Specialization" frag with
             | some sp => jsTrim sp
             | none => "Related Field")⟩

/-- The parsing loop of findLocalTutors over the fragments obtained by
splitting the text on the TUTOR_ITEM marker. -/
def parseTutors (text : String) : List TutorRecord :=
  (jsSplit text "TUTOR_ITEM").filterMap tutorFrag

/-- findLocalTutors (geminiService.ts lines 340-407), from the model call
onward: any rejection of the call (including the 90s timeout) is absorbed
and the empty list returned. -/
def findLocalTutors (call : Except JsError SearchResponse) : List TutorRecord :=
  match call with
  | Except.error _ => []
  | Except.ok resp => parseTutors resp.text

/-- Modelled from the spec (sections 4.4/4.5, quoted by claim C7): the
benchmark-stage parsing as the claim states it: the portion of the text
before the first start marker is discarded, and a fragment is accepted
exactly when its primary key (the university name) is present, the other
key defaulting to a placeholder when absent. -/
def parseBenchmarksClaim (text : String) : List BenchRecord :=
  ((jsSplit text "BENCHMARK_ITEM").drop 1).filterMap (fun frag =>
    match matchLineVal "University" frag with
    | some u =>
        some ⟨stripStars (jsTrim u),
              (match matchBlockVal "Comparison" frag with
               | some c => jsTrim c
               | none => ""),
              none⟩
    | none => none)

/-- The UI language selector (types.ts; named Language there, renamed here
to avoid the Mathlib name). -/
inductive UiLanguage where
  | en : UiLanguage
  | ar : UiLanguage

/-- EvaluationCriteria (types.ts). -/
structure EvaluationCriteria where
  iloClarity : Bool
  iloAlignment : Bool
  assessmentQuality : Bool
  referenceCurrency : Bool
  structureCompliance : Bool
  benchmarkUniversities : String

/-- The empty array literal. -/
def emptyArr : JValue := JValue.arr [] []

/-- defaultAnalysis.gapAnalysis (geminiService.ts lines 210-214). -/
def defaultGapAnalysis : JValue :=
  JValue.obj
    [("missingComponents",
        JValue.arr [JValue.str "Analysis yielded no missing components data."] []),
     ("weaknesses", JValue.arr [JValue.str "Analysis yielded no weakness data."] []),
     ("strengths", JValue.arr [JValue.str "Analysis yielded no strength data."] [])]

/-- defaultAnalysis (geminiService.ts lines 205-218). -/
def defaultAnalysis : JValue :=
  JValue.obj
    [("courseTitle", JValue.str "Untitled Course"),
     ("syllabusTopics", JValue.arr [JValue.str "General Topics"] []),
     ("overallScore", JValue.num 0),
     ("sectionScores", JValue.arr [] []),
     ("gapAnalysis", defaultGapAnalysis),
     ("recommendations", JValue.arr [] []),
     ("revisedILOs", JValue.arr [JValue.str "No revisions generated."] []),
     ("suggestedActivities", JValue.arr [] [])]

/-- The repeated sanitization statement
`if (!Array.isArray(o[k])) o[k] = fallback`. -/
def sanitizeListField (o : JValue) (k : String) (fallback : JValue) : JValue :=
  if isArrOpt (getProp o k) then o else setProp o k fallback

/-- The gap-analysis sanitization block (geminiService.ts lines 230-236):
when gapAnalysis is falsy or not object-typed, the whole default
gap-analysis object is substituted; otherwise each of its three sub-fields
is coerced to an empty array when it is not an array. -/
def gapSanitize (fd : JValue) : JValue :=
  if !(jsTruthy (getProp fd "gapAnalysis")) || !(jsTypeofObject (getProp fd "gapAnalysis")) then
    setProp fd "gapAnalysis" defaultGapAnalysis
  else
    match getProp fd "gapAnalysis" with
    | some g =>
        setProp fd "gapAnalysis"
          (sanitizeListField
            (sanitizeListField (sanitizeListField g "missingComponents" emptyArr)
              "weaknesses" emptyArr)
            "strengths" emptyArr)
    | none => fd

/-- evaluateSyllabusContent (geminiService.ts lines 112-239), from the
awaited model call onward.  The function body contains no try/catch: a
rejected call (including the 60s timeout) propagates to the caller.  On a
delivered response the text (or "\x7b\x7d" when it is empty or absent) is
recovered by parseJSON, overlaid on the default skeleton, and sanitized
field by field.  The criteria and language only shape the outbound prompt
and do not influence the handling of the response. -/
def evaluateSyllabusContent (criteria : EvaluationCriteria) (language : UiLanguage)
    (call : Except JsError String) : Except JsError JValue :=
  match call with
  | Except.error e => Except.error e
  | Except.ok txt =>
      let parsedData := parseJSON (jsOrDefault txt "\x7b\x7d")
      let d1 := spread2 defaultAnalysis parsedData
      let d2 := sanitizeListField d1 "sectionScores" emptyArr
      let d3 := sanitizeListField d2 "syllabusTopics"
        (JValue.arr [JValue.str "Topics not extracted"] [])
      let d4 := sanitizeListField d3 "recommendations" emptyArr
      let d5 := sanitizeListField d4 "revisedILOs" emptyArr
      let d6 := sanitizeListField d5 "suggestedActivities" emptyArr
      Except.ok (gapSanitize d6)

/-- The final merge of translateAnalysisResult: the object literal spreading
the original data and then the parsed translation. -/
def mergeTranslation (data parsed : JValue) : JValue := spread2 data parsed

/-- translateAnalysisResult (geminiService.ts lines 413-446), from the
awaited model call onward: a rejected call (including the 60s timeout)
propagates; a delivered response is recovered by parseJSON and shallowly
merged over the original object. -/
def translateAnalysisResult (data : JValue) (call : Except JsError String) :
    Except JsError JValue :=
  match call with
  | Except.error e => Except.error e
  | Except.ok txt =>
      Except.ok (mergeTranslation data (parseJSON (jsOrDefault txt "\x7b\x7d")))

/-- A value that is an object or an array: the only shapes on which
property assignment is effective, and the shapes the gap-analysis value
can have when it passes the truthy-and-object-typed test. -/
def ObjOrArr (g : JValue) : Prop :=
  (∃ kvs, g = JValue.obj kvs) ∨ (∃ xs props, g = JValue.arr xs props)

/-- A key whose first character is not a decimal digit can never collide
with an array index property name. -/
def headNonDigit (k : String) : Bool :=
  match k.data.head? with
  | some c => !c.isDigit
  | none => true

/-- The observable effect of one list sanitization: keep the value when it
is an array, substitute the fallback otherwise. -/
def keepIfArr (o : Option JValue) (fb : JValue) : Option JValue :=
  match o with
  | some (JValue.arr xs props) => some (JValue.arr xs props)
  | _ => some fb

/-- Field k of v is field k of mid coerced through one list sanitization
with the given fallback. -/
def coercedField (mid v : JValue) (k : String) (fb : JValue) : Prop :=
  getProp v k = keepIfArr (getProp mid k) fb

/-- The sanitization fallback for a non-list syllabusTopics. -/
def topicsPlaceholder : JValue := JValue.arr [JValue.str "Topics not extracted"] []

/-- The overlay of the parsed response on the default skeleton, before the
per-field sanitization pass of evaluateSyllabusContent. -/
def evalMid (txt : String) : JValue :=
  spread2 defaultAnalysis (parseJSON (jsOrDefault txt "\x7b\x7d"))

/-- How the emitted gapAnalysis relates to the overlaid one: when the
overlaid gapAnalysis is truthy and object-typed, each of its three
sub-fields is kept when it is an array and coerced to an empty array
otherwise; in every other case the whole default (placeholder) gap
analysis object is substituted. -/
def gapOutcome (mid v : JValue) : Prop :=
  if (jsTruthy (getProp mid "gapAnalysis") && jsTypeofObject (getProp mid "gapAnalysis")) = true then
    ∃ g gOut, getProp mid "gapAnalysis" = some g ∧ getProp v "gapAnalysis" = some gOut ∧
      getProp gOut "missingComponents" = keepIfArr (getProp g "missingComponents") emptyArr ∧
      getProp gOut "weaknesses" = keepIfArr (getProp g "weaknesses") emptyArr ∧
      getProp gOut "strengths" = keepIfArr (getProp g "strengths") emptyArr
  else getProp v "gapAnalysis" = some defaultGapAnalysis

/-- Structural completeness of an emitted analysis object: every field of
the report skeleton is present, every list-typed field is an array, and
the gap-analysis object carries its three sub-fields as arrays. -/
def structurallyComplete (v : JValue) : Prop :=
  (∃ w, getProp v "courseTitle" = some w) ∧
  (∃ w, getProp v "overallScore" = some w) ∧
  (∃ xs props, getProp v "syllabusTopics" = some (JValue.arr xs props)) ∧
  (∃ xs props, getProp v "sectionScores" = some (JValue.arr xs props)) ∧
  (∃ xs props, getProp v "recommendations" = some (JValue.arr xs props)) ∧
  (∃ xs props, getProp v "revisedILOs" = some (JValue.arr xs props)) ∧
  (∃ xs props, getProp v "suggestedActivities" = some (JValue.arr xs props)) ∧
  (∃ g, getProp v "gapAnalysis" = some g ∧
    (∃ xs props, getProp g "missingComponents" = some (JValue.arr xs props)) ∧
    (∃ xs props, getProp g "weaknesses" = some (JValue.arr xs props)) ∧
    (∃ xs props, getProp g "strengths" = some (JValue.arr xs props)))

/-- Whether a character list contains an asterisk. -/
def hasStarChars (cs : List Char) : Bool := cs.any (fun c => c == '*')

/-- Whether a string contains an asterisk. -/
def hasStar (s : String) : Bool := hasStarChars s.data

/-- Whether the pattern occurs as a contiguous substring. -/
def listHasInfix (sub : List Char) : List Char → Bool
  | [] => startsWithLit sub []
  | c :: rest => startsWithLit sub (c :: rest) || listHasInfix sub rest

/-- Whether sub occurs as a contiguous substring of s. -/
def hasSubstring (s sub : String) : Bool := listHasInfix sub.data s.data

theorem lookupFirst_objInsert_self (kvs : List (String × JValue)) (k : String) (v : JValue) :
    lookupFirst (objInsert kvs k v) k = some v := by
  induction kvs with
  | nil => simp [objInsert, lookupFirst]
  | cons kv rest ih =>
      obtain ⟨k', v'⟩ := kv
      by_cases h : k' = k
      · subst h
        simp [objInsert, lookupFirst]
      · simp [objInsert, lookupFirst, h, ih]

theorem lookupFirst_objInsert_ne (kvs : List (String × JValue)) (k : String) (v : JValue)
    (k' : String) (h : k ≠ k') :
    lookupFirst (objInsert kvs k v) k' = lookupFirst kvs k' := by
  induction kvs with
  | nil => simp [objInsert, lookupFirst, h]
  | cons kv rest ih =>
      obtain ⟨k0, v0⟩ := kv
      by_cases h0 : k0 = k
      · subst h0
        simp [objInsert, lookupFirst, h]
      · by_cases h1 : k0 = k'
        · subst h1
          simp [objInsert, lookupFirst, h0]
        · simp [objInsert, lookupFirst, h0, h1, ih]

theorem lookupFirst_append_left_none (l1 l2 : List (String × JValue)) (k : String)
    (h : lookupFirst l1 k = none) :
    lookupFirst (l1 ++ l2) k = lookupFirst l2 k := by
  induction l1 with
  | nil => simp
  | cons kv rest ih =>
      obtain ⟨k', v'⟩ := kv
      by_cases h0 : k' = k
      · simp [lookupFirst, h0] at h
      · simp [lookupFirst, h0] at h ⊢
        exact ih h

theorem lookupLast_none_of_not_mem (kvs : List (String × JValue)) (k : String)
    (h : k ∉ kvs.map Prod.fst) : lookupLast kvs k = none := by
  induction kvs with
  | nil => simp [lookupLast]
  | cons kv rest ih =>
      obtain ⟨k', v'⟩ := kv
      simp only [List.map_cons, List.mem_cons] at h
      push_neg at h
      have hne : k' ≠ k := fun e => h.1 (by simp [e])
      simp [lookupLast, ih h.2, hne]

theorem lookupLast_eq_lookupFirst_of_nodup (kvs : List (String × JValue))
    (h : (kvs.map Prod.fst).Nodup) (k : String) :
    lookupLast kvs k = lookupFirst kvs k := by
  induction kvs with
  | nil => rfl
  | cons kv rest ih =>
      obtain ⟨k', v'⟩ := kv
      simp only [List.map_cons, List.nodup_cons] at h
      by_cases h0 : k' = k
      · subst h0
        have : lookupLast rest k' = none :=
          lookupLast_none_of_not_mem rest k' h.1
        simp [lookupLast, lookupFirst, this]
      · simp only [lookupLast, lookupFirst, h0, ih h.2, if_false, if_neg h0]
        cases lookupFirst rest k <;> rfl

theorem lookupFirst_foldl_objInsert (l : List (String × JValue))
    (base : List (String × JValue)) (k : String) :
    lookupFirst (l.foldl (fun acc kv => objInsert acc kv.1 kv.2) base) k =
      match lookupLast l k with
      | some w => some w
      | none => lookupFirst base k := by
  induction l generalizing base with
  | nil => simp [lookupLast]
  | cons kv rest ih =>
      obtain ⟨k', v'⟩ := kv
      simp only [List.foldl_cons]
      rw [ih]
      cases hr : lookupLast rest k with
      | some w => simp [lookupLast, hr]
      | none =>
          by_cases h0 : k' = k
          · subst h0
            simp [lookupLast, hr, lookupFirst_objInsert_self]
          · simp [lookupLast, hr, h0, lookupFirst_objInsert_ne _ _ _ _ h0]

theorem digitChar_isDigit (n : Nat) : (digitChar n).isDigit = true := by
  unfold digitChar
  split <;> decide

theorem natStrAux_digits (fuel n : Nat) (c : Char) (h : c ∈ natStrAux fuel n) :
    c.isDigit = true := by
  induction fuel generalizing n with
  | zero => simp [natStrAux] at h
  | succ fuel ih =>
      unfold natStrAux at h
      by_cases h10 : n < 10
      · simp [h10] at h
        subst h
        exact digitChar_isDigit n
      · simp [h10] at h
        rcases h with h | h
        · exact ih _ h
        · subst h
          exact digitChar_isDigit (n % 10)

theorem natStrAux_ne_nil (n : Nat) : natStrAux (n + 1) n ≠ [] := by
  unfold natStrAux
  by_cases h10 : n < 10
  · simp [h10]
  · simp [h10]

theorem natKey_ne (n : Nat) (k : String) (h : headNonDigit k = true) : natKey n ≠ k := by
  intro heq
  have hdata : k.data = natStrAux (n + 1) n := by
    rw [← heq]
    rfl
  unfold headNonDigit at h
  cases hd : k.data with
  | nil => exact natStrAux_ne_nil n (by rw [← hdata, hd])
  | cons c cs =>
      rw [hd] at h
      simp only [List.head?_cons] at h
      have hmem : c ∈ natStrAux (n + 1) n := by
        rw [← hdata, hd]
        exact List.mem_cons_self c cs
      have := natStrAux_digits _ _ _ hmem
      simp [this] at h

theorem lookupFirst_indexedFrom_none (xs : List JValue) (i : Nat) (k : String)
    (h : headNonDigit k = true) : lookupFirst (indexedFrom i xs) k = none := by
  induction xs generalizing i with
  | nil => rfl
  | cons x rest ih =>
      simp [indexedFrom, lookupFirst, natKey_ne i k h, ih]

theorem getProp_obj (kvs : List (String × JValue)) (k : String) :
    getProp (JValue.obj kvs) k = lookupFirst kvs k := rfl

theorem getProp_arr_named (xs : List JValue) (props : List (String × JValue)) (k : String)
    (h : headNonDigit k = true) :
    getProp (JValue.arr xs props) k = lookupFirst props k := by
  unfold getProp jsSpreadProps
  exact lookupFirst_append_left_none _ _ _ (lookupFirst_indexedFrom_none xs 0 k h)

theorem getProp_setProp_self (g : JValue) (k : String) (x : JValue)
    (hg : ObjOrArr g) (hk : headNonDigit k = true) :
    getProp (setProp g k x) k = some x := by
  rcases hg with ⟨kvs, rfl⟩ | ⟨xs, props, rfl⟩
  · simp [setProp, getProp_obj, lookupFirst_objInsert_self]
  · rw [setProp, getProp_arr_named _ _ _ hk, lookupFirst_objInsert_self]

theorem getProp_setProp_ne (g : JValue) (k : String) (x : JValue) (k' : String)
    (hg : ObjOrArr g) (hk' : headNonDigit k' = true) (h : k ≠ k') :
    getProp (setProp g k x) k' = getProp g k' := by
  rcases hg with ⟨kvs, rfl⟩ | ⟨xs, props, rfl⟩
  · simp [setProp, getProp_obj, lookupFirst_objInsert_ne _ _ _ _ h]
  · rw [setProp, getProp_arr_named _ _ _ hk', getProp_arr_named _ _ _ hk',
      lookupFirst_objInsert_ne _ _ _ _ h]

theorem setProp_objOrArr (g : JValue) (k : String) (x : JValue) (hg : ObjOrArr g) :
    ObjOrArr (setProp g k x) := by
  rcases hg with ⟨kvs, rfl⟩ | ⟨xs, props, rfl⟩
  · exact Or.inl ⟨_, rfl⟩
  · exact Or.inr ⟨_, _, rfl⟩

theorem san_objOrArr (g : JValue) (k : String) (fb : JValue) (hg : ObjOrArr g) :
    ObjOrArr (sanitizeListField g k fb) := by
  unfold sanitizeListField
  split
  · exact hg
  · exact setProp_objOrArr g k fb hg

theorem san_getProp_self (g : JValue) (k : String) (fb : JValue)
    (hg : ObjOrArr g) (hk : headNonDigit k = true) :
    getProp (sanitizeListField g k fb) k = keepIfArr (getProp g k) fb := by
  unfold sanitizeListField
  cases ho : getProp g k with
  | none =>
      simp only [ho, isArrOpt, keepIfArr]
      rw [if_neg (by simp)]
      exact getProp_setProp_self g k fb hg hk
  | some w =>
      cases w with
      | arr xs props => simp [ho, isArrOpt, keepIfArr]
      | null =>
          simp only [ho, isArrOpt, keepIfArr]
          rw [if_neg (by simp)]
          exact getProp_setProp_self g k fb hg hk
      | bool b =>
          simp only [ho, isArrOpt, keepIfArr]
          rw [if_neg (by simp)]
          exact getProp_setProp_self g k fb hg hk
      | num n =>
          simp only [ho, isArrOpt, keepIfArr]
          rw [if_neg (by simp)]
          exact getProp_setProp_self g k fb hg hk
      | str s =>
          simp only [ho, isArrOpt, keepIfArr]
          rw [if_neg (by simp)]
          exact getProp_setProp_self g k fb hg hk
      | obj kvs =>
          simp only [ho, isArrOpt, keepIfArr]
          rw [if_neg (by simp)]
          exact getProp_setProp_self g k fb hg hk

theorem san_getProp_ne (g : JValue) (k : String) (fb : JValue) (k' : String)
    (hg : ObjOrArr g) (hk' : headNonDigit k' = true) (h : k ≠ k') :
    getProp (sanitizeListField g k fb) k' = getProp g k' := by
  unfold sanitizeListField
  split
  · rfl
  · exact getProp_setProp_ne g k fb k' hg hk' h

theorem getProp_spread2 (a b : JValue) (k : String) :
    getProp (spread2 a b) k =
      match lookupLast (jsSpreadProps b) k with
      | some w => some w
      | none => lookupLast (jsSpreadProps a) k := by
  show lookupFirst (spreadInto (spreadInto [] a) b) k = _
  unfold spreadInto
  rw [lookupFirst_foldl_objInsert, lookupFirst_foldl_objInsert]
  cases lookupLast (jsSpreadProps b) k with
  | some w => rfl
  | none =>
      cases lookupLast (jsSpreadProps a) k <;> rfl

theorem truthyObject_objOrArr (g : JValue)
    (h : (jsTruthy (some g) && jsTypeofObject (some g)) = true) : ObjOrArr g := by
  cases g with
  | null => simp [jsTruthy] at h
  | bool b => simp [jsTypeofObject] at h
  | num n => simp [jsTypeofObject] at h
  | str s => simp [jsTypeofObject] at h
  | arr xs props => exact Or.inr ⟨_, _, rfl⟩
  | obj kvs => exact Or.inl ⟨_, rfl⟩

theorem gapSanitize_getProp_ne (fd : JValue) (k : String)
    (hfd : ObjOrArr fd) (hk : headNonDigit k = true) (h : k ≠ "gapAnalysis") :
    getProp (gapSanitize fd) k = getProp fd k := by
  unfold gapSanitize
  split
  · exact getProp_setProp_ne fd "gapAnalysis" defaultGapAnalysis k hfd hk (Ne.symm h)
  · split
    · exact getProp_setProp_ne fd "gapAnalysis" _ k hfd hk (Ne.symm h)
    · rfl

theorem gapSanitize_gap (fd : JValue) (hfd : ObjOrArr fd) :
    if (jsTruthy (getProp fd "gapAnalysis") && jsTypeofObject (getProp fd "gapAnalysis")) = true then
      ∃ g gOut, getProp fd "gapAnalysis" = some g ∧
        getProp (gapSanitize fd) "gapAnalysis" = some gOut ∧
        getProp gOut "missingComponents" = keepIfArr (getProp g "missingComponents") emptyArr ∧
        getProp gOut "weaknesses" = keepIfArr (getProp g "weaknesses") emptyArr ∧
        getProp gOut "strengths" = keepIfArr (getProp g "strengths") emptyArr
    else getProp (gapSanitize fd) "gapAnalysis" = some defaultGapAnalysis := by
  by_cases hc : (jsTruthy (getProp fd "gapAnalysis") && jsTypeofObject (getProp fd "gapAnalysis")) = true
  · rw [if_pos hc]
    cases ho : getProp fd "gapAnalysis" with
    | none => rw [ho] at hc; simp [jsTruthy] at hc
    | some g =>
        rw [ho] at hc
        have hOA : ObjOrArr g := truthyObject_objOrArr g hc
        have hcond : (!(jsTruthy (getProp fd "gapAnalysis")) ||
            !(jsTypeofObject (getProp fd "gapAnalysis"))) = false := by
          rw [ho]
          revert hc
          cases jsTruthy (some g) <;> cases jsTypeofObject (some g) <;> simp
        have h1 : ObjOrArr (sanitizeListField g "missingComponents" emptyArr) :=
          san_objOrArr _ _ _ hOA
        have h2 : ObjOrArr (sanitizeListField
            (sanitizeListField g "missingComponents" emptyArr) "weaknesses" emptyArr) :=
          san_objOrArr _ _ _ h1
        have hout : getProp (gapSanitize fd) "gapAnalysis" =
            some (sanitizeListField
              (sanitizeListField (sanitizeListField g "missingComponents" emptyArr)
                "weaknesses" emptyArr)
              "strengths" emptyArr) := by
          unfold gapSanitize
          rw [hcond]
          simp only [Bool.false_eq_true, if_false, ho]
          exact getProp_setProp_self fd "gapAnalysis" _ hfd (by decide)
        refine ⟨g, _, rfl, hout, ?_, ?_, ?_⟩
        · rw [san_getProp_ne _ _ _ _ h2 (by decide) (by decide),
            san_getProp_ne _ _ _ _ h1 (by decide) (by decide),
            san_getProp_self _ _ _ hOA (by decide)]
        · rw [san_getProp_ne _ _ _ _ h2 (by decide) (by decide),
            san_getProp_self _ _ _ h1 (by decide),
            san_getProp_ne _ _ _ _ hOA (by decide) (by decide)]
        · rw [san_getProp_self _ _ _ h2 (by decide),
            san_getProp_ne _ _ _ _ h1 (by decide) (by decide),
            san_getProp_ne _ _ _ _ hOA (by decide) (by decide)]
  · rw [if_neg hc]
    have hcond : (!(jsTruthy (getProp fd "gapAnalysis")) ||
        !(jsTypeofObject (getProp fd "gapAnalysis"))) = true := by
      revert hc
      cases jsTruthy (getProp fd "gapAnalysis") <;>
        cases jsTypeofObject (getProp fd "gapAnalysis") <;> simp
    unfold gapSanitize
    rw [hcond]
    simp only [if_true]
    exact getProp_setProp_self fd "gapAnalysis" _ hfd (by decide)

theorem evalMid_objOrArr (txt : String) : ObjOrArr (evalMid txt) := Or.inl ⟨_, rfl⟩

theorem evaluate_ok_char (criteria : EvaluationCriteria) (language : UiLanguage) (txt : String) :
    ∃ v, evaluateSyllabusContent criteria language (Except.ok txt) = Except.ok v ∧
      coercedField (evalMid txt) v "sectionScores" emptyArr ∧
      coercedField (evalMid txt) v "syllabusTopics" topicsPlaceholder ∧
      coercedField (evalMid txt) v "recommendations" emptyArr ∧
      coercedField (evalMid txt) v "revisedILOs" emptyArr ∧
      coercedField (evalMid txt) v "suggestedActivities" emptyArr ∧
      gapOutcome (evalMid txt) v ∧
      getProp v "courseTitle" = getProp (evalMid txt) "courseTitle" ∧
      getProp v "overallScore" = getProp (evalMid txt) "overallScore" := by
  have hM : ObjOrArr (evalMid txt) := evalMid_objOrArr txt
  have h2 : ObjOrArr (sanitizeListField (evalMid txt) "sectionScores" emptyArr) :=
    san_objOrArr _ _ _ hM
  have h3 : ObjOrArr (sanitizeListField
      (sanitizeListField (evalMid txt) "sectionScores" emptyArr)
      "syllabusTopics" topicsPlaceholder) :=
    san_objOrArr _ _ _ h2
  have h4 : ObjOrArr (sanitizeListField (sanitizeListField
      (sanitizeListField (evalMid txt) "sectionScores" emptyArr)
      "syllabusTopics" topicsPlaceholder) "recommendations" emptyArr) :=
    san_objOrArr _ _ _ h3
  have h5 : ObjOrArr (sanitizeListField (sanitizeListField (sanitizeListField
      (sanitizeListField (evalMid txt) "sectionScores" emptyArr)
      "syllabusTopics" topicsPlaceholder) "recommendations" emptyArr)
      "revisedILOs" emptyArr) :=
    san_objOrArr _ _ _ h4
  have h6 : ObjOrArr (sanitizeListField (sanitizeListField (sanitizeListField
      (sanitizeListField (sanitizeListField (evalMid txt) "sectionScores" emptyArr)
      "syllabusTopics" topicsPlaceholder) "recommendations" emptyArr)
      "revisedILOs" emptyArr) "suggestedActivities" emptyArr) :=
    san_objOrArr _ _ _ h5
  refine ⟨gapSanitize (sanitizeListField (sanitizeListField (sanitizeListField
      (sanitizeListField (sanitizeListField (evalMid txt) "sectionScores" emptyArr)
      "syllabusTopics" topicsPlaceholder) "recommendations" emptyArr)
      "revisedILOs" emptyArr) "suggestedActivities" emptyArr),
    rfl, ?_, ?_, ?_, ?_, ?_, ?_, ?_, ?_⟩
  · show getProp _ "sectionScores" = _
    rw [gapSanitize_getProp_ne _ _ h6 (by decide) (by decide),
      san_getProp_ne _ _ _ _ h5 (by decide) (by decide),
      san_getProp_ne _ _ _ _ h4 (by decide) (by decide),
      san_getProp_ne _ _ _ _ h3 (by decide) (by decide),
      san_getProp_ne _ _ _ _ h2 (by decide) (by decide),
      san_getProp_self _ _ _ hM (by decide)]
  · show getProp _ "syllabusTopics" = _
    rw [gapSanitize_getProp_ne _ _ h6 (by decide) (by decide),
      san_getProp_ne _ _ _ _ h5 (by decide) (by decide),
      san_getProp_ne _ _ _ _ h4 (by decide) (by decide),
      san_getProp_ne _ _ _ _ h3 (by decide) (by decide),
      san_getProp_self _ _ _ h2 (by decide),
      san_getProp_ne _ _ _ _ hM (by decide) (by decide)]
  · show getProp _ "recommendations" = _
    rw [gapSanitize_getProp_ne _ _ h6 (by decide) (by decide),
      san_getProp_ne _ _ _ _ h5 (by decide) (by decide),
      san_getProp_ne _ _ _ _ h4 (by decide) (by decide),
      san_getProp_self _ _ _ h3 (by decide),
      san_getProp_ne _ _ _ _ h2 (by decide) (by decide),
      san_getProp_ne _ _ _ _ hM (by decide) (by decide)]
  · show getProp _ "revisedILOs" = _
    rw [gapSanitize_getProp_ne _ _ h6 (by decide) (by decide),
      san_getProp_ne _ _ _ _ h5 (by decide) (by decide),
      san_getProp_self _ _ _ h4 (by decide),
      san_getProp_ne _ _ _ _ h3 (by decide) (by decide),
      san_getProp_ne _ _ _ _ h2 (by decide) (by decide),
      san_getProp_ne _ _ _ _ hM (by decide) (by decide)]
  · show getProp _ "suggestedActivities" = _
    rw [gapSanitize_getProp_ne _ _ h6 (by decide) (by decide),
      san_getProp_self _ _ _ h5 (by decide),
      san_getProp_ne _ _ _ _ h4 (by decide) (by decide),
      san_getProp_ne _ _ _ _ h3 (by decide) (by decide),
      san_getProp_ne _ _ _ _ h2 (by decide) (by decide),
      san_getProp_ne _ _ _ _ hM (by decide) (by decide)]
  · have hga : getProp (sanitizeListField (sanitizeListField (sanitizeListField
        (sanitizeListField (sanitizeListField (evalMid txt) "sectionScores" emptyArr)
        "syllabusTopics" topicsPlaceholder) "recommendations" emptyArr)
        "revisedILOs" emptyArr) "suggestedActivities" emptyArr) "gapAnalysis" =
        getProp (evalMid txt) "gapAnalysis" := by
      rw [san_getProp_ne _ _ _ _ h5 (by decide) (by decide),
        san_getProp_ne _ _ _ _ h4 (by decide) (by decide),
        san_getProp_ne _ _ _ _ h3 (by decide) (by decide),
        san_getProp_ne _ _ _ _ h2 (by decide) (by decide),
        san_getProp_ne _ _ _ _ hM (by decide) (by decide)]
    have hgap := gapSanitize_gap _ h6
    rw [hga] at hgap
    exact hgap
  · show getProp _ "courseTitle" = _
    rw [gapSanitize_getProp_ne _ _ h6 (by decide) (by decide),
      san_getProp_ne _ _ _ _ h5 (by decide) (by decide),
      san_getProp_ne _ _ _ _ h4 (by decide) (by decide),
      san_getProp_ne _ _ _ _ h3 (by decide) (by decide),
      san_getProp_ne _ _ _ _ h2 (by decide) (by decide),
      san_getProp_ne _ _ _ _ hM (by decide) (by decide)]
  · show getProp _ "overallScore" = _
    rw [gapSanitize_getProp_ne _ _ h6 (by decide) (by decide),
      san_getProp_ne _ _ _ _ h5 (by decide) (by decide),
      san_getProp_ne _ _ _ _ h4 (by decide) (by decide),
      san_getProp_ne _ _ _ _ h3 (by decide) (by decide),
      san_getProp_ne _ _ _ _ h2 (by decide) (by decide),
      san_getProp_ne _ _ _ _ hM (by decide) (by decide)]

theorem keepIfArr_shape (o : Option JValue) (ys : List JValue) (ps : List (String × JValue)) :
    ∃ xs props, keepIfArr o (JValue.arr ys ps) = some (JValue.arr xs props) := by
  cases o with
  | none => exact ⟨ys, ps, rfl⟩
  | some w =>
      cases w with
      | null => exact ⟨ys, ps, rfl⟩
      | bool b => exact ⟨ys, ps, rfl⟩
      | num n => exact ⟨ys, ps, rfl⟩
      | str t => exact ⟨ys, ps, rfl⟩
      | arr xs props => exact ⟨xs, props, rfl⟩
      | obj kvs => exact ⟨ys, ps, rfl⟩

theorem evalMid_present (txt : String) (k : String) (d : JValue)
    (hd : lookupLast (jsSpreadProps defaultAnalysis) k = some d) :
    ∃ w, getProp (evalMid txt) k = some w := by
  unfold evalMid
  rw [getProp_spread2]
  cases hp : lookupLast (jsSpreadProps (parseJSON (jsOrDefault txt "\x7b\x7d"))) k with
  | some w => exact ⟨w, rfl⟩
  | none => exact ⟨d, hd⟩

theorem stripStars_no_star (s : String) : hasStar (stripStars s) = false := by
  show ((s.data.filter (fun c => c != '*')).any (fun c => c == '*')) = false
  induction s.data with
  | nil => rfl
  | cons c rest ih =>
      by_cases h : c = '*'
      · subst h
        simp [ih]
      · simp only [List.filter_cons]
        have hb : (c != '*') = true := by simp [h]
        rw [hb]
        simp only [if_true, List.any_cons, ih, Bool.or_false]
        simp [h]

/-- Claim C1, counterexample.  The claim says no gapAnalysis list of an
emitted result is ever empty.  For the model response
binding gapAnalysis to an empty JSON object, the parsed gapAnalysis is an
object, so the
sub-field sanitization coerces each absent sub-field to the EMPTY list,
not to the placeholder: all three emitted lists are empty. -/
theorem c1_counterexample :
    ∃ v, evaluateSyllabusContent ⟨true, true, true, true, true, ""⟩ UiLanguage.en
        (Except.ok "\x7b\"gapAnalysis\": \x7b\x7d\x7d") = Except.ok v ∧
      getProp v "gapAnalysis" =
        some (JValue.obj [("missingComponents", JValue.arr [] []),
                          ("weaknesses", JValue.arr [] []),
                          ("strengths", JValue.arr [] [])]) :=
  ⟨_, rfl, rfl⟩

/-- Claim C1 (amended): the three placeholder sentinels are substituted
only when the overlaid gapAnalysis value is falsy or not object-typed (in
which case the whole default gap-analysis object is emitted); when the
parsed gapAnalysis is a truthy object-typed value, each sub-field is kept
when it is a list (even an empty one) and coerced to the EMPTY list
otherwise, so emitted gap-analysis lists can be empty. -/
theorem c1_gap_list_sanitization (criteria : EvaluationCriteria) (language : UiLanguage)
    (txt : String) :
    ∃ v, evaluateSyllabusContent criteria language (Except.ok txt) = Except.ok v ∧
      gapOutcome (evalMid txt) v := by
  obtain ⟨v, hv, -, -, -, -, -, hgap, -, -⟩ := evaluate_ok_char criteria language txt
  exact ⟨v, hv, hgap⟩

/-- Claim C2, counterexample.  The claim says the structured extraction
stage never fails, for every behaviour of the upstream call including
timeout.  The stage body has no exception handler: a rejected call (here,
the timeout rejection) propagates to the caller unchanged instead of
producing a result. -/
theorem c2_counterexample :
    evaluateSyllabusContent ⟨true, true, true, true, true, ""⟩ UiLanguage.en
        (Except.error ⟨"Analysis timed out (60s)."⟩) =
      Except.error ⟨"Analysis timed out (60s)."⟩ := rfl

/-- Claim C2 (amended): a rejected model call (including the 60-second
timeout) propagates out of evaluateSyllabusContent unchanged; whenever the
call delivers a response, the stage returns a structurally complete
result for every response text: all report fields are present, every
list-typed field is an array, and the gap-analysis object carries its
three sub-fields as arrays. -/
theorem c2_structural_outcome (criteria : EvaluationCriteria) (language : UiLanguage) :
    (∀ e, evaluateSyllabusContent criteria language (Except.error e) = Except.error e) ∧
    (∀ txt, ∃ v, evaluateSyllabusContent criteria language (Except.ok txt) = Except.ok v ∧
      structurallyComplete v) := by
  refine ⟨fun e => rfl, fun txt => ?_⟩
  obtain ⟨v, hv, hss, hst, hrec, hilo, hact, hgap, hct, hos⟩ :=
    evaluate_ok_char criteria language txt
  refine ⟨v, hv, ?_, ?_, ?_, ?_, ?_, ?_, ?_, ?_⟩
  · rw [hct]
    exact evalMid_present txt "courseTitle" (JValue.str "Untitled Course") rfl
  · rw [hos]
    exact evalMid_present txt "overallScore" (JValue.num 0) rfl
  · rw [hst]
    exact keepIfArr_shape _ _ _
  · rw [hss]
    exact keepIfArr_shape _ _ _
  · rw [hrec]
    exact keepIfArr_shape _ _ _
  · rw [hilo]
    exact keepIfArr_shape _ _ _
  · rw [hact]
    exact keepIfArr_shape _ _ _
  · unfold gapOutcome at hgap
    split at hgap
    · obtain ⟨g, gOut, hg, hout, e1, e2, e3⟩ := hgap
      refine ⟨gOut, hout, ?_, ?_, ?_⟩
      · rw [e1]
        exact keepIfArr_shape _ _ _
      · rw [e2]
        exact keepIfArr_shape _ _ _
      · rw [e3]
        exact keepIfArr_shape _ _ _
    · exact ⟨defaultGapAnalysis, hgap,
        ⟨_, _, rfl⟩, ⟨_, _, rfl⟩, ⟨_, _, rfl⟩⟩

/-- Claim C3, counterexample.  The claim says parseJSON first attempts a
whole-text parse.  On the input consisting of the five characters
quote-brace-space-brace-quote (a valid JSON string literal), a whole-text
parse yields that string, but the function matches the inner brace pair
first and returns the empty object. -/
theorem c3_counterexample :
    parseJSON "\"\x7b \x7d\"" = JValue.obj [] ∧
    parseJSONSpecOrder "\"\x7b \x7d\"" = JValue.str "\x7b \x7d" := ⟨rfl, rfl⟩

/-- Claim C3 (amended): parseJSON applies this order, inside a single
exception handler: (a) extract the first-brace-to-last-brace substring and
parse it when present; (b) otherwise extract the first-bracket-to-
last-bracket substring and parse it when present; (c) otherwise strip
code-fence markers and parse the remainder; a parse failure at the chosen
step yields the empty object without falling through to a later step, and
no whole-text parse is attempted first. -/
theorem c3_recovery_order (text : String) :
    parseJSON text =
      (match braceMatch text with
       | some m => (jsonParse m).getD (JValue.obj [])
       | none =>
           match bracketMatch text with
           | some m => (jsonParse m).getD (JValue.obj [])
           | none => (jsonParse (stripFences text)).getD (JValue.obj [])) := rfl

/-- Claim C4, counterexample.  The claim says a non-list revisedILOs is
coerced to the non-empty placeholder and a non-list syllabusTopics to the
empty list.  The code does the opposite: for the response
binding revisedILOs to 5 and syllabusTopics to 7, the emitted revisedILOs is the
empty list and the emitted syllabusTopics is the one-element placeholder
list. -/
theorem c4_counterexample :
    ∃ v, evaluateSyllabusContent ⟨true, true, true, true, true, ""⟩ UiLanguage.en
        (Except.ok "\x7b\"revisedILOs\": 5, \"syllabusTopics\": 7\x7d") = Except.ok v ∧
      getProp v "revisedILOs" = some (JValue.arr [] []) ∧
      getProp v "syllabusTopics" =
        some (JValue.arr [JValue.str "Topics not extracted"] []) :=
  ⟨_, rfl, rfl, rfl⟩

/-- Claim C4 (amended): every list-typed field whose overlaid value is not
a list is coerced to the empty list — including revisedILOs and, when the
parsed gapAnalysis is a truthy object-typed value, the three gap-analysis
sub-fields — except syllabusTopics, which is coerced to the one-element
placeholder list ["Topics not extracted"]; list values are kept as-is and
no non-list value is left in place. -/
theorem c4_list_coercions (criteria : EvaluationCriteria) (language : UiLanguage)
    (txt : String) :
    ∃ v, evaluateSyllabusContent criteria language (Except.ok txt) = Except.ok v ∧
      coercedField (evalMid txt) v "sectionScores" emptyArr ∧
      coercedField (evalMid txt) v "syllabusTopics" topicsPlaceholder ∧
      coercedField (evalMid txt) v "recommendations" emptyArr ∧
      coercedField (evalMid txt) v "revisedILOs" emptyArr ∧
      coercedField (evalMid txt) v "suggestedActivities" emptyArr ∧
      gapOutcome (evalMid txt) v := by
  obtain ⟨v, hv, hss, hst, hrec, hilo, hact, hgap, -, -⟩ :=
    evaluate_ok_char criteria language txt
  exact ⟨v, hv, hss, hst, hrec, hilo, hact, hgap⟩

/-- Claim C5: every rejection of the upstream call (including timeout) is
absorbed locally by the search-grounded stages: performBenchmarking
returns exactly the single "Search Unavailable" sentinel record whose
comparison text contains "timeout", and findLocalTutors returns the empty
list; neither stage propagates the rejection. -/
theorem c5_search_fallbacks (e : JsError) :
    performBenchmarking (Except.error e) =
      [⟨"Search Unavailable",
        "Benchmarking skipped due to connection timeout or error.", none⟩] ∧
    findLocalTutors (Except.error e) = [] ∧
    hasSubstring "Benchmarking skipped due to connection timeout or error." "timeout" = true :=
  ⟨rfl, rfl, rfl⟩

/-- Claim C6: the translation merge contains every top-level key of the
original object — keys present in the parsed translation carry the
translated value, keys the translation omitted keep their original value,
and no key of the original becomes undefined.  (The key-list hypotheses
state that both objects are well-formed JavaScript objects, which cannot
bind a key twice.) -/
theorem c6_translation_merge (kvs : List (String × JValue)) (txt : String) (k : String)
    (v : JValue) (hnodup : (kvs.map Prod.fst).Nodup)
    (hparsed : ((jsSpreadProps (parseJSON (jsOrDefault txt "\x7b\x7d"))).map Prod.fst).Nodup)
    (hk : lookupFirst kvs k = some v) :
    ∃ m, translateAnalysisResult (JValue.obj kvs) (Except.ok txt) = Except.ok m ∧
      getProp m k = some ((getProp (parseJSON (jsOrDefault txt "\x7b\x7d")) k).getD v) := by
  refine ⟨_, rfl, ?_⟩
  show getProp (spread2 (JValue.obj kvs) (parseJSON (jsOrDefault txt "\x7b\x7d"))) k =
    some ((lookupFirst (jsSpreadProps (parseJSON (jsOrDefault txt "\x7b\x7d"))) k).getD v)
  rw [getProp_spread2, lookupLast_eq_lookupFirst_of_nodup _ hparsed]
  cases hp : lookupFirst (jsSpreadProps (parseJSON (jsOrDefault txt "\x7b\x7d"))) k with
  | some w => rfl
  | none =>
      show lookupLast kvs k = some v
      rw [lookupLast_eq_lookupFirst_of_nodup _ hnodup, hk]

/-- Witness for C6 at a concrete original object and translation text:
the original binds "a" and "b", the translation carries only "a", and the
merge keeps the original value of "b". -/
theorem c6_translation_merge_witness :
    ∃ m, translateAnalysisResult
        (JValue.obj [("a", JValue.str "x"), ("b", JValue.str "y")])
        (Except.ok "\x7b\"a\":\"T\"\x7d") = Except.ok m ∧
      getProp m "b" =
        some ((getProp (parseJSON (jsOrDefault "\x7b\"a\":\"T\"\x7d" "\x7b\x7d")) "b").getD
          (JValue.str "y")) :=
  c6_translation_merge [("a", JValue.str "x"), ("b", JValue.str "y")]
    "\x7b\"a\":\"T\"\x7d" "b" (JValue.str "y") (by decide) (by decide) rfl

/-- Claim C7, counterexample.  The claim says the portion of the text
before the first start marker is discarded and that a fragment is accepted
exactly when its primary key is present.  On this text the code produces
one record from the PRE-marker portion (university "P"), and drops the
post-marker fragment whose university "A" is present but whose comparison
is absent; the parser the claim describes produces exactly the "A"
record. -/
theorem c7_counterexample :
    (parseBenchmarks
        "University: P\nComparison: Q\nBENCHMARK_ITEM\nUniversity: A\n").map
      (fun r => r.university) = ["P"] ∧
    (parseBenchmarksClaim
        "University: P\nComparison: Q\nBENCHMARK_ITEM\nUniversity: A\n").map
      (fun r => r.university) = ["A"] := ⟨rfl, rfl⟩

/-- Claim C7 (amended): the delimited-text parsers examine EVERY fragment
produced by splitting on the start marker, including the portion before
the first marker; the benchmark parser accepts a fragment exactly when
BOTH its university and its comparison keys match, the tutor parser
exactly when its name key matches; a dropped fragment does not affect the
records produced from sibling fragments. -/
theorem c7_fragment_acceptance (text frag : String) :
    parseBenchmarks text = (jsSplit text "BENCHMARK_ITEM").filterMap benchFrag ∧
    parseTutors text = (jsSplit text "TUTOR_ITEM").filterMap tutorFrag ∧
    (benchFrag frag).isSome =
      ((matchLineVal "University" frag).isSome && (matchBlockVal "Comparison" frag).isSome) ∧
    (tutorFrag frag).isSome = (matchLineVal "Name" frag).isSome := by
  refine ⟨rfl, rfl, ?_, ?_⟩
  · unfold benchFrag
    cases matchLineVal "University" frag <;> cases matchBlockVal "Comparison" frag <;> rfl
  · unfold tutorFrag
    cases matchLineVal "Name" frag <;> rfl

/-- Claim C8, counterexample.  The claim says asterisks are stripped from
every extracted field value.  The benchmark parser strips them from the
university but NOT from the comparison: here the emitted comparison still
contains an asterisk. -/
theorem c8_counterexample :
    parseBenchmarks "BENCHMARK_ITEM\nUniversity: *A*\nComparison: x *y*\n" =
      [⟨"A", "x *y*", none⟩] ∧
    hasStar "x *y*" = true := ⟨rfl, rfl⟩

/-- Claim C8 (amended): asterisks are stripped from the single-line field
values — university in the benchmark parser, and name, affiliation and
email in the tutor parser — but not from the multi-line last fields
(comparison and specialization), which are only trimmed. -/
theorem c8_star_stripping (text : String) :
    ((parseBenchmarks text).all (fun r => !(hasStar r.university))) = true ∧
    ((parseTutors text).all (fun r =>
      !(hasStar r.name) && !(hasStar r.affiliation) && !(hasStar r.email))) = true := by
  constructor
  · rw [List.all_eq_true]
    intro r hr
    unfold parseBenchmarks at hr
    rw [List.mem_filterMap] at hr
    obtain ⟨frag, -, hf⟩ := hr
    unfold benchFrag at hf
    cases hu : matchLineVal "University" frag with
    | none => rw [hu] at hf; cases hf
    | some u =>
        cases hc : matchBlockVal "Comparison" frag with
        | none => rw [hu, hc] at hf; cases hf
        | some c =>
            rw [hu, hc] at hf
            cases hf
            simp [stripStars_no_star]
  · rw [List.all_eq_true]
    intro r hr
    unfold parseTutors at hr
    rw [List.mem_filterMap] at hr
    obtain ⟨frag, -, hf⟩ := hr
    unfold tutorFrag at hf
    cases hn : matchLineVal "Name" frag with
    | none => rw [hn] at hf; cases hf
    | some n =>
        rw [hn] at hf
        cases hf
        cases matchLineVal "Affiliation" frag <;>
          cases matchLineVal "Email" frag <;>
            · simp only [stripStars_no_star]
              decide

/-- Claim C9: performBenchmarking always returns a non-empty list — the
rejection path returns the "Search Unavailable" sentinel, a parse with no
records returns the "No Data" sentinel, and the remaining path is guarded
by the records being non-empty. -/
theorem c9_benchmarks_nonempty (call : Except JsError SearchResponse) :
    0 < (performBenchmarking call).length := by
  cases call with
  | error e => simp [performBenchmarking]
  | ok resp =>
      show 0 < (if 0 < (attachUrl (parseBenchmarks resp.text) resp.chunks).length then
          attachUrl (parseBenchmarks resp.text) resp.chunks
        else [⟨"No Data", "Could not retrieve benchmarks.", none⟩]).length
      split
      · next h => exact h
      · simp

/-- Claim C10: when the wrapped operation settles before the deadline with
a rejection, withTimeout propagates that rejection unchanged; the
caller-supplied timeout message is not substituted for it. -/
theorem c10_timeout_propagation {α : Type} (p : Settled α) (ms : Nat) (errorMsg : String)
    (e : JsError) (ht : p.time < ms) (ho : p.outcome = Except.error e) :
    (withTimeout p ms errorMsg).outcome = Except.error e := by
  unfold withTimeout race
  rw [if_pos (Nat.le_of_lt ht)]
  exact ho

/-- Witness for C10: an operation that rejects with "network failure" at
instant 5, wrapped with the 60-second budget of the extraction stage,
yields the original rejection, not the timeout message. -/
theorem c10_timeout_propagation_witness :
    (5 : Nat) < 60000 ∧
    (withTimeout (⟨5, Except.error ⟨"network failure"⟩⟩ : Settled String) 60000
        "Analysis timed out (60s).").outcome = Except.error ⟨"network failure"⟩ :=
  ⟨by decide,
    c10_timeout_propagation (⟨5, Except.error ⟨"network failure"⟩⟩ : Settled String)
      60000 "Analysis timed out (60s)." ⟨"network failure"⟩ (by decide) rfl⟩
